import Mathlib

/-!
Shallow embedding of the KVDB manager (`src/engine/source/kvdb/src/kvdbManager.cpp`
of the wazuh repository) and proofs about its lifecycle operations.

Modelling conventions:
- `std::map<std::string, V>` is embedded as an association list
  `List (String × V)` with distinct keys; all claims proved here are
  stated through key lookup and are therefore independent of the sorted
  iteration order that `std::map` guarantees and an association list does not.
- RocksDB, the filesystem and the JSON parser are external collaborators;
  their behaviour enters each operation as an explicit function or value
  argument (an oracle), and point writes are recorded as an explicit trace.
- Out-of-bounds `std::vector` indexing (which the C++ performs on the handle
  vector when `rocksdb::DB::Open` fails) is modelled as abnormal termination:
  the embedded initializer returns `none`.
-/

set_option autoImplicit false

namespace kvdbManager

/-! ### Association-list counterparts of the `std::map` operations used by the code -/

/-- Lookup of a key in an association list (`std::map::find` / presence test). -/
def alookup {α : Type} (k : String) : List (String × α) → Option α
  | [] => none
  | (k', v) :: rest => if k = k' then some v else alookup k rest

/-- `std::map::count`: number of entries with the given key, `0` or `1`. -/
def mapCount {α : Type} (m : List (String × α)) (k : String) : Nat :=
  match alookup k m with
  | some _ => 1
  | none => 0

/-- `operator[]` assignment: replace the value at `k`, or append a new entry. -/
def mapSet {α : Type} (k : String) (v : α) : List (String × α) → List (String × α)
  | [] => [(k, v)]
  | (k', v') :: rest => if k' = k then (k, v) :: rest else (k', v') :: mapSet k v rest

/-- `std::map::insert` / `emplace`: no-op when the key is already present. -/
def mapInsertNew {α : Type} (k : String) (v : α) (m : List (String × α)) : List (String × α) :=
  match alookup k m with
  | some _ => m
  | none => m ++ [(k, v)]

/-- `std::map::erase` at the iterator returned by `find`: drop the first entry with key `k`. -/
def mapErase {α : Type} (k : String) : List (String × α) → List (String × α)
  | [] => []
  | (k', v) :: rest => if k = k' then rest else (k', v) :: mapErase k rest

/-- `operator[]` read with a default for an absent key. -/
def mapGetD {α : Type} (k : String) (d : α) (m : List (String × α)) : α :=
  match alookup k m with
  | some v => v
  | none => d

/-! ### Errors

Each `base::Error` built by `fmt::format` in the source is embedded as a
constructor carrying exactly the values interpolated into the message. -/

/-- The errors produced by `KVDBManager`, one constructor per `fmt::format` call site. -/
inductive BaseError : Type where
  /-- "Could not remove the DB {name}. Usage Reference Count: {refCount}." -/
  | couldNotRemoveInUse (name : String) (refCount : Nat)
  /-- "Could not remove the DB {name}. RocksDB Status: {status}" -/
  | couldNotRemoveStatus (name : String) (status : String)
  /-- "The DB not exists." (deleteDB / loadDBFromFile) -/
  | dbNotExists
  /-- "The DB {name} not exists." (getKVDBHandler) -/
  | dbNotExistsNamed (name : String)
  /-- "The path is empty." -/
  | pathEmpty
  /-- "An error occurred while opening the file {path}" -/
  | fileOpenError (path : String)
  /-- "An error occurred while parsing the JSON file {path}" -/
  | parseError (path : String)
  /-- "An error occurred while parsing the JSON file {path}: JSON is not an object" -/
  | notObjectError (path : String)
  /-- "An error occurred while inserting data key {key}, value {value}: " (status dropped by the format string) -/
  | putError (key : String) (value : String) (status : String)
  /-- "Could not create DB {name}, RocksDB Status: {status}" -/
  | couldNotCreate (name : String) (status : String)
deriving DecidableEq

/-! ### Handler registry

`KVDBHandlerCollection` and `RefCounter` are declared in headers that are not
part of the sources at hand; they are modelled from the spec. -/

/-- Per-database usage map: scope name to active-handler count. -/
abbrev RefInfo : Type := List (String × Nat)

/-- Per-scope reverse usage map: database name to count. -/
abbrev RefCounter : Type := List (String × Nat)

/-- Modelled from the spec: `RefCounter::addRef` (source not under src/) adds
`cnt` references for `dbName`, creating the entry when absent. -/
def RefCounter.addRef (rc : RefCounter) (dbName : String) (cnt : Nat) : RefCounter :=
  mapSet dbName (mapGetD dbName 0 rc + cnt) rc

/-- Modelled from the spec: the handler registry (`KVDBHandlerCollection`,
source not under src/) tracks, per database name, a mapping from scope
identifier to an active-handler count. -/
abbrev HandlerCollection : Type := List (String × RefInfo)

/-- Modelled from the spec: `KVDBHandlerCollection::addKVDBHandler` (acquire)
increments the usage entry for `(dbName, scopeName)`, creating it at 1. -/
def addKVDBHandler (c : HandlerCollection) (dbName scopeName : String) : HandlerCollection :=
  let ri := mapGetD dbName [] c
  mapSet dbName (mapSet scopeName (mapGetD scopeName 0 ri + 1) ri) c

/-- Modelled from the spec: `KVDBHandlerCollection::getDBNames` lists the
databases with a usage entry. -/
def getDBNames (c : HandlerCollection) : List String :=
  c.map Prod.fst

/-- Modelled from the spec: `KVDBHandlerCollection::getRefMap` returns the
scope-to-count map of one database. -/
def getRefMap (c : HandlerCollection) (dbName : String) : RefInfo :=
  mapGetD dbName [] c

/-! ### Manager state -/

/-- The reserved default column-family name (`rocksdb::kDefaultColumnFamilyName`). -/
def kDefaultColumnFamilyName : String := "default"

/-- The mutable state of `KVDBManager`: the tracked namespace set
(`m_mapCFHandles`, name to engine handle id), the separately kept default
handle, the engine pointer, the handler registry, and the init flag. -/
structure KVDBManager : Type where
  mapCFHandles : List (String × Nat)
  pDefaultCFHandle : Option Nat
  pRocksDB : Option Nat
  kvdbHandlerCollection : HandlerCollection
  isInitialized : Bool
deriving DecidableEq

/-- A handler as constructed by `getKVDBHandler`: bound to the engine pointer,
one column-family handle and one (database, scope) pair.  The shared registry
back-reference is represented by the manager state itself. -/
structure KVDBHandler : Type where
  pRocksDB : Option Nat
  cfHandle : Nat
  dbName : String
  scopeName : String
deriving DecidableEq

/-! ### Operations -/

/-- `KVDBManager::existsDB`: membership in the tracked namespace set. -/
def existsDB (st : KVDBManager) (name : String) : Bool :=
  decide (0 < mapCount st.mapCFHandles name)

/-- `KVDBManager::listDBs`: the tracked namespace names, `loaded` unused. -/
def listDBs (st : KVDBManager) (loaded : Bool) : List String :=
  st.mapCFHandles.map Prod.fst

/-- `KVDBManager::getKVDBHandlersInfo`: for each registered database name,
pair it with its scope usage map (the loop of `insert` over `getDBNames`). -/
def getKVDBHandlersInfo (st : KVDBManager) : List (String × RefInfo) :=
  (getDBNames st.kvdbHandlerCollection).map
    (fun dbName => (dbName, getRefMap st.kvdbHandlerCollection dbName))

/-- The inner loop body of `getKVDBScopesInfo`: route one `(scope, count)`
entry of database `dbName` into the per-scope counter map. -/
def scopeStep (dbName : String) (acc : List (String × RefCounter)) (p : String × Nat) :
    List (String × RefCounter) :=
  mapSet p.1 (RefCounter.addRef (mapGetD p.1 [] acc) dbName p.2) acc

/-- The outer loop body of `getKVDBScopesInfo`: fold one database's whole
scope map into the per-scope counter map. -/
def dbStep (acc : List (String × RefCounter)) (q : String × RefInfo) :
    List (String × RefCounter) :=
  q.2.foldl (scopeStep q.1) acc

/-- `KVDBManager::getKVDBScopesInfo`: invert `getKVDBHandlersInfo` into a
scope-indexed view (the final copy loop of the C++ re-emplaces the counter
map entry by entry and is the identity on this representation). -/
def getKVDBScopesInfo (st : KVDBManager) : List (String × RefCounter) :=
  (getKVDBHandlersInfo st).foldl dbStep []

/-- Nested lookup in a two-level usage view: the count recorded under outer
key `a`, inner key `b`. -/
def usage2 (m : List (String × List (String × Nat))) (a b : String) : Option Nat :=
  match alookup a m with
  | some inner => alookup b inner
  | none => none

/-- Well-formedness of one usage entry map, as the registry maintains it per
the spec: nonempty, distinct scope keys, strictly positive counts (entries
are removed when a count reaches zero). -/
abbrev RefInfoWF (ri : RefInfo) : Prop :=
  ri ≠ [] ∧ (ri.map Prod.fst).Nodup ∧ ∀ p ∈ ri, 0 < p.2

/-- Well-formedness of the handler registry state: distinct database keys and
well-formed per-database usage maps. -/
abbrev CollectionWF (c : HandlerCollection) : Prop :=
  (c.map Prod.fst).Nodup ∧ ∀ p ∈ c, RefInfoWF p.2

/-- `KVDBManager::getKVDBHandler`: fail when the name is untracked, otherwise
acquire `(dbName, scopeName)` in the registry and build the handler. -/
def getKVDBHandler (st : KVDBManager) (dbName scopeName : String) :
    Except BaseError KVDBHandler × KVDBManager :=
  match alookup dbName st.mapCFHandles with
  | none => (Except.error (BaseError.dbNotExistsNamed dbName), st)
  | some cfHandle =>
    let coll := addKVDBHandler st.kvdbHandlerCollection dbName scopeName
    (Except.ok
      { pRocksDB := st.pRocksDB, cfHandle := cfHandle, dbName := dbName, scopeName := scopeName },
      { st with kvdbHandlerCollection := coll })

/-- `KVDBManager::deleteDB`; `drop` is the engine `DropColumnFamily` oracle
(`none` = ok status, `some s` = failure status string). -/
def deleteDB (drop : Nat → Option String) (st : KVDBManager) (name : String) :
    Option BaseError × KVDBManager :=
  let handlersInfo := getKVDBHandlersInfo st
  let refCount := mapCount handlersInfo name
  if refCount ≠ 0 then
    (some (BaseError.couldNotRemoveInUse name refCount), st)
  else
    match alookup name st.mapCFHandles with
    | some cfHandle =>
      match drop cfHandle with
      | none => (none, { st with mapCFHandles := mapErase name st.mapCFHandles })
      | some s => (some (BaseError.couldNotRemoveStatus name s), st)
    | none => (some BaseError.dbNotExists, st)

/-- `KVDBManager::createColumnFamily`; `createCF` is the engine
`CreateColumnFamily` oracle returning a fresh handle or a status string. -/
def createColumnFamily (createCF : String → Except String Nat) (st : KVDBManager)
    (name : String) : Except BaseError Nat × KVDBManager :=
  match createCF name with
  | Except.ok cfHandle =>
    (Except.ok cfHandle, { st with mapCFHandles := mapInsertNew name cfHandle st.mapCFHandles })
  | Except.error s => (Except.error (BaseError.couldNotCreate name s), st)

/-- `KVDBManager::createDB`: no-op success when the name already exists,
otherwise create the column family. -/
def createDB (createCF : String → Except String Nat) (st : KVDBManager) (name : String) :
    Option BaseError × KVDBManager :=
  if existsDB st name then
    (none, st)
  else
    match createColumnFamily createCF st name with
    | (Except.error e, st') => (some e, st')
    | (Except.ok _, st') => (none, st')

/-! ### Bulk load -/

/-- A structured value inside a parsed document, represented at the
serialization boundary by the string `json::Json::str()` would produce. -/
structure JsonValue : Type where
  str : String
deriving DecidableEq

/-- A parsed document: a key-value object or anything else
(`isObject` false / `getObject` none). -/
inductive JsonDoc : Type where
  | object (entries : List (String × JsonValue))
  | other
deriving DecidableEq

/-- `json::Json::getObject`: the entries when the root is an object. -/
def JsonDoc.getObject : JsonDoc → Option (List (String × JsonValue))
  | JsonDoc.object entries => some entries
  | JsonDoc.other => none

/-- The write loop of `loadDBFromFile`; `put` is the engine `Put` oracle
(`none` = ok).  Returns the error outcome and the trace of performed writes. -/
def putEntries (put : Nat → String → String → Option String) (cfHandle : Nat) :
    List (String × JsonValue) → Option BaseError × List (String × String)
  | [] => (none, [])
  | (key, value) :: rest =>
    match put cfHandle key value.str with
    | some s => (some (BaseError.putError key value.str s), [])
    | none =>
      let r := putEntries put cfHandle rest
      (r.1, (key, value.str) :: r.2)

/-- `KVDBManager::loadDBFromFile`; `readFile` models opening and reading the
file (`none` = open failure) and `parse` the JSON parser (`none` = exception).
The second component is the trace of point writes performed on the engine. -/
def loadDBFromFile (put : Nat → String → String → Option String)
    (readFile : String → Option String) (parse : String → Option JsonDoc)
    (st : KVDBManager) (name path : String) : Option BaseError × List (String × String) :=
  match alookup name st.mapCFHandles with
  | none => (some BaseError.dbNotExists, [])
  | some cfHandle =>
    if path = "" then (some BaseError.pathEmpty, [])
    else
      match readFile path with
      | none => (some (BaseError.fileOpenError path), [])
      | some contents =>
        match parse contents with
        | none => (some (BaseError.parseError path), [])
        | some doc =>
          match doc.getObject with
          | none => (some (BaseError.notObjectError path), [])
          | some entries => putEntries put cfHandle entries

/-! ### Initialization and shutdown -/

/-- The column-family descriptor names built by `initializeMainDB`:
the listed names (empty when listing failed), with the default name
appended when absent. -/
def buildColumnFamilyNames (listResult : Option (List String)) : List String :=
  let columnNames := listResult.getD []
  if kDefaultColumnFamilyName ∈ columnNames then columnNames
  else columnNames ++ [kDefaultColumnFamilyName]

/-- The handle-joining loop of `initializeMainDB`: pair descriptor names with
open handles, keeping the default handle aside.  Indexing the handle vector
past its end (what the C++ does when `Open` failed and left it empty) is
abnormal termination, modelled as `none`. -/
def joinColumnFamilies : List String → List Nat → List (String × Nat) → Option Nat →
    Option (List (String × Nat) × Option Nat)
  | [], _, m, dh => some (m, dh)
  | _ :: _, [], _, _ => none
  | n :: ns, h :: hs, m, dh =>
    if n = kDefaultColumnFamilyName then joinColumnFamilies ns hs m (some h)
    else joinColumnFamilies ns hs (mapInsertNew n h m) dh

/-- `KVDBManager::initializeMainDB`; `listResult` is the engine
`ListColumnFamilies` oracle (`none` = non-ok status) and `openResult` the
`DB::Open` oracle (`none` = failure, leaving the handle vector empty; the
status itself is not checked by the code). -/
def initializeMainDB (listResult : Option (List String)) (openResult : Option (List Nat))
    (st : KVDBManager) : Option KVDBManager :=
  let cfNames := buildColumnFamilyNames listResult
  let cfHandles := openResult.getD []
  match joinColumnFamilies cfNames cfHandles st.mapCFHandles st.pDefaultCFHandle with
  | some (m, dh) =>
    some { st with mapCFHandles := m, pDefaultCFHandle := dh,
                   pRocksDB := if openResult.isSome then some 0 else none }
  | none => none

/-- `KVDBManager::initialize` (renamed, the source name is a Lean keyword):
options, main DB, then the init flag. -/
def initializeManager (listResult : Option (List String)) (openResult : Option (List Nat))
    (st : KVDBManager) : Option KVDBManager :=
  match initializeMainDB listResult openResult st with
  | some st' => some { st' with isInitialized := true }
  | none => none

/-- `KVDBManager::finalizeMainDB`: drop and destroy every handle (statuses
ignored), clear the tracked set and null the engine pointer. -/
def finalizeMainDB (st : KVDBManager) : KVDBManager :=
  { st with mapCFHandles := [], pRocksDB := none }

/-- `KVDBManager::finalize`: tear down the main DB and clear the init flag. -/
def finalize (st : KVDBManager) : KVDBManager :=
  { finalizeMainDB st with isInitialized := false }

/-! ### Sample states used to instantiate hypotheses at concrete inputs -/

/-- A freshly constructed manager: nothing tracked, engine not opened. -/
def stEmpty : KVDBManager :=
  { mapCFHandles := [], pDefaultCFHandle := none, pRocksDB := none,
    kvdbHandlerCollection := [], isInitialized := false }

/-- A manager tracking one database `db1` with no live handler. -/
def stTracked : KVDBManager :=
  { mapCFHandles := [("db1", 5)], pDefaultCFHandle := some 0, pRocksDB := some 0,
    kvdbHandlerCollection := [], isInitialized := true }

/-- A manager tracking `db1` while two scopes `s1` and `s2` each hold one
unreleased handler for it. -/
def stTwoScopes : KVDBManager :=
  { mapCFHandles := [("db1", 5)], pDefaultCFHandle := some 0, pRocksDB := some 0,
    kvdbHandlerCollection := [("db1", [("s1", 1), ("s2", 1)])], isInitialized := true }

/-- The result of initializing a fresh manager over a store holding only the
reserved default column family (handle 7). -/
def stInitDefault : KVDBManager :=
  { mapCFHandles := [], pDefaultCFHandle := some 7, pRocksDB := some 0,
    kvdbHandlerCollection := [], isInitialized := true }

/-- A put oracle that rejects the key `bad` with status `ST` and accepts
everything else. -/
def putSample : Nat → String → String → Option String :=
  fun _ key _ => if key = "bad" then some "ST" else none

/-- A read oracle under which every file opens and holds `contents`. -/
def readFileSample : String → Option String :=
  fun _ => some "contents"

/-- A parse oracle producing a three-entry object whose middle key is `bad`. -/
def parseSample : String → Option JsonDoc :=
  fun _ => some (JsonDoc.object [("a", ⟨"1"⟩), ("bad", ⟨"2"⟩), ("z", ⟨"3"⟩)])

/-! ### Lemmas about the association-list map operations -/

theorem alookup_mapSet {α : Type} (k k' : String) (v : α) (m : List (String × α)) :
    alookup k' (mapSet k v m) = if k' = k then some v else alookup k' m := by
  induction m with
  | nil => simp [mapSet, alookup]
  | cons p rest ih =>
    obtain ⟨k0, v0⟩ := p
    by_cases h0 : k0 = k
    · subst h0
      by_cases h1 : k' = k0 <;> simp [mapSet, alookup, h1]
    · by_cases h1 : k' = k0
      · subst h1
        have h2 : ¬k' = k := fun hk => h0 (hk ▸ rfl)
        simp [mapSet, alookup, h0, h2]
      · simp [mapSet, alookup, h0, h1, ih]

theorem alookup_append {α : Type} (k : String) (m l : List (String × α)) :
    alookup k (m ++ l) =
      match alookup k m with
      | some v => some v
      | none => alookup k l := by
  induction m with
  | nil => simp [alookup]
  | cons p rest ih =>
    obtain ⟨k0, v0⟩ := p
    by_cases h0 : k = k0 <;> simp [alookup, h0, ih]

theorem alookup_mapInsertNew_self {α : Type} (k : String) (v : α) (m : List (String × α))
    (h : alookup k m = none) : alookup k (mapInsertNew k v m) = some v := by
  simp only [mapInsertNew, h, alookup_append]
  simp [alookup, h]

theorem alookup_mapInsertNew_ne {α : Type} (k k' : String) (v : α) (m : List (String × α))
    (h : k' ≠ k) : alookup k' (mapInsertNew k v m) = alookup k' m := by
  unfold mapInsertNew
  cases hk : alookup k m with
  | some w => rfl
  | none =>
    rw [alookup_append]
    cases h' : alookup k' m with
    | some w => rfl
    | none => simp [alookup, h]

theorem alookup_none_not_mem_keys {α : Type} (k : String) (m : List (String × α))
    (h : alookup k m = none) : k ∉ m.map Prod.fst := by
  induction m with
  | nil => simp
  | cons p rest ih =>
    obtain ⟨k0, v0⟩ := p
    by_cases h0 : k = k0
    · subst h0; simp [alookup] at h
    · simp only [alookup, h0, if_false] at h
      simp [h0, ih h]

theorem alookup_map_keys {α : Type} (k : String) (names : List String) (f : String → α) :
    alookup k (names.map (fun d => (d, f d))) =
      if k ∈ names then some (f k) else none := by
  induction names with
  | nil => simp [alookup]
  | cons n rest ih =>
    by_cases h0 : k = n
    · subst h0; simp [alookup]
    · simp [alookup, h0, ih]

theorem existsDB_eq (st : KVDBManager) (name : String) :
    existsDB st name = (alookup name st.mapCFHandles).isSome := by
  unfold existsDB mapCount
  cases alookup name st.mapCFHandles <;> simp

/-! ### Claim theorems -/

/-- C9: the result of `listDBs` is independent of its boolean `loaded`
argument, which the implementation ignores. -/
theorem listDBs_ignores_loaded (st : KVDBManager) (b1 b2 : Bool) :
    listDBs st b1 = listDBs st b2 := rfl

/-- C10: after `finalize` the tracked-namespace set is empty: every
`existsDB` query is false, `listDBs` is empty, and the engine pointer is
cleared. -/
theorem finalize_clears_state (st : KVDBManager) (name : String) (b : Bool) :
    existsDB (finalize st) name = false ∧
    listDBs (finalize st) b = [] ∧
    (finalize st).pRocksDB = none := by
  refine ⟨?_, rfl, rfl⟩
  simp [finalize, finalizeMainDB, existsDB, mapCount, alookup]

theorem getRefMap_addKVDBHandler_self (c : HandlerCollection) (db sc : String) :
    alookup sc (getRefMap (addKVDBHandler c db sc) db) =
      some (mapGetD sc 0 (getRefMap c db) + 1) := by
  unfold addKVDBHandler getRefMap
  simp [mapGetD, alookup_mapSet]

/-- C4: `getKVDBHandler` fails with the "does not exist" error on an
untracked name, leaving the whole state (registry included) unchanged;
on a tracked name it records exactly one more acquisition for
`(dbName, scopeName)` in the registry and returns a handler bound to the
namespace handle, the engine pointer and the (shared) registry. -/
theorem getKVDBHandler_spec (st : KVDBManager) (dbName scopeName : String) :
    (alookup dbName st.mapCFHandles = none →
      getKVDBHandler st dbName scopeName =
        (Except.error (BaseError.dbNotExistsNamed dbName), st)) ∧
    (∀ hdl, alookup dbName st.mapCFHandles = some hdl →
      getKVDBHandler st dbName scopeName =
        (Except.ok { pRocksDB := st.pRocksDB, cfHandle := hdl,
                     dbName := dbName, scopeName := scopeName },
         { st with kvdbHandlerCollection :=
             addKVDBHandler st.kvdbHandlerCollection dbName scopeName }) ∧
      alookup scopeName
          (getRefMap (addKVDBHandler st.kvdbHandlerCollection dbName scopeName) dbName) =
        some (mapGetD scopeName 0 (getRefMap st.kvdbHandlerCollection dbName) + 1)) := by
  constructor
  · intro h
    simp [getKVDBHandler, h]
  · intro hdl hh
    exact ⟨by simp [getKVDBHandler, hh], getRefMap_addKVDBHandler_self _ _ _⟩

/-- Witness for C4: both branches of `getKVDBHandler_spec` instantiated on
concrete states. -/
theorem getKVDBHandler_spec_witness :
    getKVDBHandler stTracked "nope" "s1" =
      (Except.error (BaseError.dbNotExistsNamed "nope"), stTracked) ∧
    getKVDBHandler stTracked "db1" "s1" =
      (Except.ok { pRocksDB := some 0, cfHandle := 5, dbName := "db1", scopeName := "s1" },
       { stTracked with kvdbHandlerCollection :=
           addKVDBHandler stTracked.kvdbHandlerCollection "db1" "s1" }) := by
  constructor
  · exact (getKVDBHandler_spec stTracked "nope" "s1").1 (by decide)
  · exact ((getKVDBHandler_spec stTracked "db1" "s1").2 5 (by decide)).1

/-- C5: `createDB` is a no-op success when the name already exists; on an
engine create failure it returns the error carrying the engine status and
leaves the name untracked (state unchanged); on engine success the name is
tracked and `existsDB` becomes true. -/
theorem createDB_spec (createCF : String → Except String Nat) (st : KVDBManager)
    (name : String) :
    (existsDB st name = true → createDB createCF st name = (none, st)) ∧
    (existsDB st name = false →
      (∀ s, createCF name = Except.error s →
        createDB createCF st name = (some (BaseError.couldNotCreate name s), st)) ∧
      (∀ hdl, createCF name = Except.ok hdl →
        createDB createCF st name =
          (none, { st with mapCFHandles := mapInsertNew name hdl st.mapCFHandles }) ∧
        existsDB { st with mapCFHandles := mapInsertNew name hdl st.mapCFHandles } name
          = true)) := by
  constructor
  · intro h
    simp [createDB, h]
  · intro h
    have h0 : alookup name st.mapCFHandles = none := by
      cases hx : alookup name st.mapCFHandles with
      | none => rfl
      | some w => rw [existsDB_eq, hx] at h; simp at h
    constructor
    · intro s hs
      simp [createDB, h, createColumnFamily, hs]
    · intro hdl hh
      constructor
      · simp [createDB, h, createColumnFamily, hh]
      · rw [existsDB_eq]
        simp [alookup_mapInsertNew_self name hdl _ h0]

/-- Witness for C5: create on a fresh manager succeeds and makes the name
exist; engine failure surfaces the status; re-create is a no-op success. -/
theorem createDB_spec_witness :
    createDB (fun _ => Except.ok 9) stEmpty "db1" =
      (none, { stEmpty with mapCFHandles := mapInsertNew "db1" 9 stEmpty.mapCFHandles }) ∧
    existsDB { stEmpty with mapCFHandles := mapInsertNew "db1" 9 stEmpty.mapCFHandles } "db1"
      = true ∧
    createDB (fun _ => Except.error "boom") stEmpty "db1" =
      (some (BaseError.couldNotCreate "db1" "boom"), stEmpty) ∧
    createDB (fun _ => Except.ok 9) stTracked "db1" = (none, stTracked) := by
  have hOk := ((createDB_spec (fun _ => Except.ok 9) stEmpty "db1").2 (by decide)).2 9 rfl
  have hErr :=
    ((createDB_spec (fun _ => Except.error "boom") stEmpty "db1").2 (by decide)).1 "boom" rfl
  have hNoop := (createDB_spec (fun _ => Except.ok 9) stTracked "db1").1 (by decide)
  exact ⟨hOk.1, hOk.2, hErr, hNoop⟩

/-- C2: `deleteDB` on a name with zero usage: untracked names get the
"not exists" error with the state unchanged; on a tracked name an engine
drop failure surfaces the status and leaves the namespace tracked, while a
successful drop erases exactly that entry from the tracked set. -/
theorem deleteDB_zero_usage_spec (drop : Nat → Option String) (st : KVDBManager)
    (name : String)
    (hzero : alookup name (getKVDBHandlersInfo st) = none) :
    (alookup name st.mapCFHandles = none →
      deleteDB drop st name = (some BaseError.dbNotExists, st)) ∧
    (∀ hdl, alookup name st.mapCFHandles = some hdl →
      (∀ s, drop hdl = some s →
        deleteDB drop st name = (some (BaseError.couldNotRemoveStatus name s), st)) ∧
      (drop hdl = none →
        deleteDB drop st name =
          (none, { st with mapCFHandles := mapErase name st.mapCFHandles }))) := by
  have hcount : mapCount (getKVDBHandlersInfo st) name = 0 := by
    simp [mapCount, hzero]
  constructor
  · intro h
    simp [deleteDB, hcount, h]
  · intro hdl hh
    constructor
    · intro s hs
      simp [deleteDB, hcount, hh, hs]
    · intro hs
      simp [deleteDB, hcount, hh, hs]

/-- Witness for C2: all three zero-usage branches of `deleteDB` on concrete
states. -/
theorem deleteDB_zero_usage_spec_witness :
    deleteDB (fun _ => none) stTracked "db1" =
      (none, { stTracked with mapCFHandles := mapErase "db1" stTracked.mapCFHandles }) ∧
    deleteDB (fun _ => some "drop failed") stTracked "db1" =
      (some (BaseError.couldNotRemoveStatus "db1" "drop failed"), stTracked) ∧
    deleteDB (fun _ => none) stTracked "ghost" =
      (some BaseError.dbNotExists, stTracked) := by
  refine ⟨?_, ?_, ?_⟩
  · exact ((deleteDB_zero_usage_spec (fun _ => none) stTracked "db1" (by decide)).2
      5 (by decide)).2 rfl
  · exact ((deleteDB_zero_usage_spec (fun _ => some "drop failed") stTracked "db1"
      (by decide)).2 5 (by decide)).1 "drop failed" rfl
  · exact (deleteDB_zero_usage_spec (fun _ => none) stTracked "ghost" (by decide)).1 (by decide)

/-- C1: `deleteDB` does fail while handlers are unreleased, but the count it
reports is `std::map::count` of the key in the handlers view — always 1 for
a used database — not the number of distinct active scope acquisitions:
with scopes s1 and s2 each holding a handler for db1 (2 distinct
acquisitions), the error reports Usage Reference Count 1. -/
theorem deleteDB_reports_key_count_not_usage :
    deleteDB (fun _ => none) stTwoScopes "db1" =
      (some (BaseError.couldNotRemoveInUse "db1" 1), stTwoScopes) ∧
    (getRefMap stTwoScopes.kvdbHandlerCollection "db1").length = 2 ∧
    (1 : Nat) ≠ 2 := by decide

theorem buildColumnFamilyNames_ne_nil (listResult : Option (List String)) :
    buildColumnFamilyNames listResult ≠ [] := by
  unfold buildColumnFamilyNames
  cases listResult with
  | none => simp
  | some names =>
    by_cases h : kDefaultColumnFamilyName ∈ names
    · simpa [h] using List.ne_nil_of_mem h
    · simp [h]

theorem joinColumnFamilies_default_absent (m' : List (String × Nat)) (dh' : Option Nat)
    (ns : List String) (hs : List Nat) (m : List (String × Nat)) (dh : Option Nat)
    (hjoin : joinColumnFamilies ns hs m dh = some (m', dh'))
    (habs : alookup kDefaultColumnFamilyName m = none) :
    alookup kDefaultColumnFamilyName m' = none := by
  induction ns generalizing hs m dh with
  | nil =>
    simp only [joinColumnFamilies, Option.some.injEq, Prod.mk.injEq] at hjoin
    rw [← hjoin.1]
    exact habs
  | cons n ns ih =>
    cases hs with
    | nil => simp [joinColumnFamilies] at hjoin
    | cons h hs =>
      by_cases hn : n = kDefaultColumnFamilyName
      · simp only [joinColumnFamilies, if_pos hn] at hjoin
        exact ih _ _ _ hjoin habs
      · simp only [joinColumnFamilies, if_neg hn] at hjoin
        refine ih _ _ _ hjoin ?_
        rw [alookup_mapInsertNew_ne _ _ _ _ (fun he => hn he.symm)]
        exact habs

theorem initializeManager_eq (listResult : Option (List String))
    (openResult : Option (List Nat)) (st : KVDBManager) :
    initializeManager listResult openResult st =
      match joinColumnFamilies (buildColumnFamilyNames listResult) (openResult.getD [])
          st.mapCFHandles st.pDefaultCFHandle with
      | some (m, dh) =>
        some { st with mapCFHandles := m, pDefaultCFHandle := dh,
                       pRocksDB := if openResult.isSome then some 0 else none,
                       isInitialized := true }
      | none => none := by
  dsimp only [initializeManager, initializeMainDB]
  cases joinColumnFamilies (buildColumnFamilyNames listResult) (openResult.getD [])
      st.mapCFHandles st.pDefaultCFHandle with
  | none => rfl
  | some pr => obtain ⟨m, dh⟩ := pr; rfl

/-- C6: on a manager that does not already track the reserved default
namespace (as after construction), a completed `initialize` never puts the
default name into the tracked set: `existsDB` on it is false and `listDBs`
never lists it — its handle is routed to the separate default-handle field. -/
theorem initialize_excludes_default (listResult : Option (List String))
    (openResult : Option (List Nat)) (st st' : KVDBManager)
    (habs : alookup kDefaultColumnFamilyName st.mapCFHandles = none)
    (hinit : initializeManager listResult openResult st = some st') :
    existsDB st' kDefaultColumnFamilyName = false ∧
    ∀ b, kDefaultColumnFamilyName ∉ listDBs st' b := by
  rw [initializeManager_eq] at hinit
  cases hjoin : joinColumnFamilies (buildColumnFamilyNames listResult) (openResult.getD [])
      st.mapCFHandles st.pDefaultCFHandle with
  | none => rw [hjoin] at hinit; exact absurd hinit (by simp)
  | some pr =>
    obtain ⟨m', dh'⟩ := pr
    rw [hjoin] at hinit
    rw [Option.some_inj] at hinit
    subst hinit
    have hm : alookup kDefaultColumnFamilyName m' = none :=
      joinColumnFamilies_default_absent m' dh' _ _ _ _ hjoin habs
    constructor
    · rw [existsDB_eq]
      simp [hm]
    · intro b
      exact alookup_none_not_mem_keys _ _ hm

/-- Witness for C6: initializing a fresh manager over a store that contains
only the default column family. -/
theorem initialize_excludes_default_witness :
    existsDB stInitDefault kDefaultColumnFamilyName = false ∧
    kDefaultColumnFamilyName ∉ listDBs stInitDefault true := by
  have h := initialize_excludes_default (some [kDefaultColumnFamilyName]) (some [7])
    stEmpty stInitDefault (by decide) (by decide)
  exact ⟨h.1, h.2 true⟩

/-- C8: when the engine cannot be opened (the handle vector stays empty) the
embedded `initialize` terminates abnormally — the C++ indexes the empty
vector out of bounds — and conversely every normally completed `initialize`
had a successful engine open. -/
theorem initialize_requires_engine_open (listResult : Option (List String))
    (openResult : Option (List Nat)) (st : KVDBManager) :
    (openResult = none → initializeManager listResult openResult st = none) ∧
    (∀ st', initializeManager listResult openResult st = some st' →
      openResult.isSome = true) := by
  have hnone : openResult = none → initializeManager listResult openResult st = none := by
    intro h
    subst h
    rw [initializeManager_eq]
    cases hc : buildColumnFamilyNames listResult with
    | nil => exact absurd hc (buildColumnFamilyNames_ne_nil listResult)
    | cons n ns => rfl
  refine ⟨hnone, ?_⟩
  intro st' h
  by_contra hns
  have ho : openResult = none := by
    cases openResult with
    | none => rfl
    | some v => simp at hns
  rw [hnone ho] at h
  exact absurd h (by simp)

/-- Witness for C8: a failed open aborts initialization of a fresh manager;
a successful open over a default-only store completes and implies the open
happened. -/
theorem initialize_requires_engine_open_witness :
    initializeManager none none stEmpty = none ∧
    (some [7] : Option (List Nat)).isSome = true := by
  constructor
  · exact (initialize_requires_engine_open none none stEmpty).1 rfl
  · exact (initialize_requires_engine_open (some [kDefaultColumnFamilyName]) (some [7])
      stEmpty).2 stInitDefault (by decide)

theorem putEntries_all_ok (put : Nat → String → String → Option String) (cfHandle : Nat)
    (entries : List (String × JsonValue))
    (h : ∀ e ∈ entries, put cfHandle e.1 e.2.str = none) :
    putEntries put cfHandle entries = (none, entries.map (fun e => (e.1, e.2.str))) := by
  induction entries with
  | nil => rfl
  | cons e rest ih =>
    obtain ⟨key, value⟩ := e
    have h0 : put cfHandle key value.str = none := h (key, value) (by simp)
    have h1 : ∀ e ∈ rest, put cfHandle e.1 e.2.str = none := fun e he => h e (by simp [he])
    simp [putEntries, h0, ih h1]

theorem putEntries_first_failure (put : Nat → String → String → Option String)
    (cfHandle : Nat) (pre post : List (String × JsonValue)) (key : String)
    (value : JsonValue) (s : String)
    (hpre : ∀ e ∈ pre, put cfHandle e.1 e.2.str = none)
    (hfail : put cfHandle key value.str = some s) :
    putEntries put cfHandle (pre ++ (key, value) :: post) =
      (some (BaseError.putError key value.str s), pre.map (fun e => (e.1, e.2.str))) := by
  induction pre with
  | nil => simp [putEntries, hfail]
  | cons e rest ih =>
    obtain ⟨k0, v0⟩ := e
    have h0 : put cfHandle k0 v0.str = none := hpre (k0, v0) (by simp)
    have h1 : ∀ e ∈ rest, put cfHandle e.1 e.2.str = none := fun e he => hpre e (by simp [he])
    simp [putEntries, h0, ih h1]

/-- C7: `loadDBFromFile` returns an error with no write performed when the
name is untracked, the path is empty, the file does not open, the contents
do not parse, or the parsed root is not an object; otherwise it writes the
root object's entries in order, and the first engine write failure aborts
with an error while the writes already performed remain (no rollback). -/
theorem loadDBFromFile_spec (put : Nat → String → String → Option String)
    (readFile : String → Option String) (parse : String → Option JsonDoc)
    (st : KVDBManager) (name path : String) :
    (alookup name st.mapCFHandles = none →
      loadDBFromFile put readFile parse st name path = (some BaseError.dbNotExists, [])) ∧
    (∀ cfHandle, alookup name st.mapCFHandles = some cfHandle →
      (path = "" →
        loadDBFromFile put readFile parse st name path = (some BaseError.pathEmpty, [])) ∧
      (path ≠ "" →
        (readFile path = none →
          loadDBFromFile put readFile parse st name path =
            (some (BaseError.fileOpenError path), [])) ∧
        (∀ contents, readFile path = some contents →
          (parse contents = none →
            loadDBFromFile put readFile parse st name path =
              (some (BaseError.parseError path), [])) ∧
          (∀ doc, parse contents = some doc →
            (doc.getObject = none →
              loadDBFromFile put readFile parse st name path =
                (some (BaseError.notObjectError path), [])) ∧
            (∀ entries, doc.getObject = some entries →
              ((∀ e ∈ entries, put cfHandle e.1 e.2.str = none) →
                loadDBFromFile put readFile parse st name path =
                  (none, entries.map (fun e => (e.1, e.2.str)))) ∧
              (∀ pre key value post s,
                entries = pre ++ (key, value) :: post →
                (∀ e ∈ pre, put cfHandle e.1 e.2.str = none) →
                put cfHandle key value.str = some s →
                loadDBFromFile put readFile parse st name path =
                  (some (BaseError.putError key value.str s),
                   pre.map (fun e => (e.1, e.2.str))))))))) := by
  constructor
  · intro h
    simp [loadDBFromFile, h]
  · intro cfHandle hh
    constructor
    · intro hp
      simp [loadDBFromFile, hh, hp]
    · intro hp
      constructor
      · intro hr
        simp [loadDBFromFile, hh, hp, hr]
      · intro contents hr
        constructor
        · intro hparse
          simp [loadDBFromFile, hh, hp, hr, hparse]
        · intro doc hparse
          constructor
          · intro hobj
            simp [loadDBFromFile, hh, hp, hr, hparse, hobj]
          · intro entries hobj
            have hload : loadDBFromFile put readFile parse st name path =
                putEntries put cfHandle entries := by
              simp [loadDBFromFile, hh, hp, hr, hparse, hobj]
            constructor
            · intro hall
              rw [hload]
              exact putEntries_all_ok put cfHandle entries hall
            · intro pre key value post s hsplit hpre hfail
              rw [hload, hsplit]
              exact putEntries_first_failure put cfHandle pre post key value s hpre hfail

/-- Witness for C7: a concrete load whose middle entry is rejected by the
engine keeps the first write and aborts, and a load on an untracked name
performs no write. -/
theorem loadDBFromFile_spec_witness :
    loadDBFromFile putSample readFileSample parseSample stTracked "db1" "f.json" =
      (some (BaseError.putError "bad" "2" "ST"), [("a", "1")]) ∧
    loadDBFromFile putSample readFileSample parseSample stTracked "ghost" "f.json" =
      (some BaseError.dbNotExists, []) := by
  constructor
  · exact ((((((loadDBFromFile_spec putSample readFileSample parseSample stTracked
      "db1" "f.json").2 5 (by decide)).2 (by decide)).2 "contents" rfl).2
      (JsonDoc.object [("a", ⟨"1"⟩), ("bad", ⟨"2"⟩), ("z", ⟨"3"⟩)]) rfl).2
      [("a", ⟨"1"⟩), ("bad", ⟨"2"⟩), ("z", ⟨"3"⟩)] rfl).2
      [("a", ⟨"1"⟩)] "bad" ⟨"2"⟩ [("z", ⟨"3"⟩)] "ST" rfl (by decide) (by decide)
  · exact (loadDBFromFile_spec putSample readFileSample parseSample stTracked
      "ghost" "f.json").1 (by decide)

/-! ### Lemmas for the transposed usage view -/

theorem alookup_some_mem {α : Type} (k : String) (m : List (String × α)) (v : α)
    (h : alookup k m = some v) : (k, v) ∈ m := by
  induction m with
  | nil => simp [alookup] at h
  | cons p rest ih =>
    obtain ⟨k0, v0⟩ := p
    by_cases h0 : k = k0
    · subst h0
      simp [alookup] at h
      simp [h]
    · simp only [alookup, h0, if_false] at h
      simp [ih h]

theorem mapSet_ne_nil {α : Type} (k : String) (v : α) (m : List (String × α)) :
    mapSet k v m ≠ [] := by
  cases m with
  | nil => simp [mapSet]
  | cons p rest =>
    obtain ⟨k0, v0⟩ := p
    by_cases h0 : k0 = k <;> simp [mapSet, h0]

theorem mem_mapSet {α : Type} (k : String) (v : α) (m : List (String × α))
    (p : String × α) (hp : p ∈ mapSet k v m) : p = (k, v) ∨ p ∈ m := by
  induction m with
  | nil => simp [mapSet] at hp; simp [hp]
  | cons q rest ih =>
    obtain ⟨k0, v0⟩ := q
    by_cases h0 : k0 = k
    · subst h0
      simp [mapSet] at hp
      rcases hp with hp | hp
      · exact Or.inl (by simp [hp])
      · exact Or.inr (by simp [hp])
    · simp only [mapSet, h0, if_false, List.mem_cons] at hp
      rcases hp with hp | hp
      · exact Or.inr (by simp [hp])
      · rcases ih hp with hq | hq
        · exact Or.inl hq
        · exact Or.inr (by simp [hq])

theorem mem_keys_alookup {α : Type} (c : List (String × α)) (d : String)
    (hd : d ∈ c.map Prod.fst) : ∃ v, alookup d c = some v ∧ (d, v) ∈ c := by
  induction c with
  | nil => simp at hd
  | cons p rest ih =>
    obtain ⟨k0, v0⟩ := p
    by_cases h0 : d = k0
    · subst h0
      exact ⟨v0, by simp [alookup], by simp⟩
    · have hd' : d ∈ rest.map Prod.fst := by
        simp at hd
        rcases hd with hd | hd
        · exact absurd hd h0
        · simpa using hd
      obtain ⟨v, hv, hmem⟩ := ih hd'
      exact ⟨v, by simp [alookup, h0, hv], by simp [hmem]⟩

theorem usage2_alookup (m : List (String × List (String × Nat))) (a b : String)
    (inner : List (String × Nat)) (h : alookup a m = some inner) :
    usage2 m a b = alookup b inner := by
  unfold usage2
  rw [h]

theorem usage2_none (m : List (String × List (String × Nat))) (a b : String)
    (h : alookup a m = none) : usage2 m a b = none := by
  unfold usage2
  rw [h]

theorem mapGetD_some {α : Type} (k : String) (d : α) (m : List (String × α)) (v : α)
    (h : alookup k m = some v) : mapGetD k d m = v := by
  unfold mapGetD
  rw [h]

theorem mapGetD_none {α : Type} (k : String) (d : α) (m : List (String × α))
    (h : alookup k m = none) : mapGetD k d m = d := by
  unfold mapGetD
  rw [h]

theorem handlersInfo_keys (st : KVDBManager) :
    (getKVDBHandlersInfo st).map Prod.fst = st.kvdbHandlerCollection.map Prod.fst := by
  unfold getKVDBHandlersInfo getDBNames
  rw [List.map_map]
  simp [Function.comp]

theorem handlersInfo_values_wf (st : KVDBManager)
    (hwf : CollectionWF st.kvdbHandlerCollection) :
    ∀ q ∈ getKVDBHandlersInfo st, RefInfoWF q.2 := by
  intro q hq
  unfold getKVDBHandlersInfo at hq
  rw [List.mem_map] at hq
  obtain ⟨d, hd, hq⟩ := hq
  obtain ⟨ri, hri, hmem⟩ := mem_keys_alookup st.kvdbHandlerCollection d hd
  have : getRefMap st.kvdbHandlerCollection d = ri := by
    unfold getRefMap mapGetD
    rw [hri]
  rw [← hq, this]
  exact (hwf.2 (d, ri) hmem)

theorem inner_fold_untouched_scope (d : String) (ri : RefInfo)
    (acc : List (String × RefCounter)) (s : String)
    (hs : s ∉ ri.map Prod.fst) :
    alookup s (ri.foldl (scopeStep d) acc) = alookup s acc := by
  induction ri generalizing acc with
  | nil => rfl
  | cons p rest ih =>
    rw [List.map_cons, List.mem_cons] at hs
    push_neg at hs
    rw [List.foldl_cons, ih _ hs.2]
    unfold scopeStep
    rw [alookup_mapSet, if_neg hs.1]

theorem inner_fold_other_db (d d' : String) (hne : d' ≠ d) (ri : RefInfo)
    (acc : List (String × RefCounter)) (s : String) :
    usage2 (ri.foldl (scopeStep d) acc) s d' = usage2 acc s d' := by
  induction ri generalizing acc with
  | nil => rfl
  | cons p rest ih =>
    rw [List.foldl_cons, ih]
    by_cases hsp : s = p.1
    · have hl : alookup s (scopeStep d acc p) =
          some (RefCounter.addRef (mapGetD p.1 [] acc) d p.2) := by
        unfold scopeStep
        rw [alookup_mapSet, if_pos hsp]
      rw [usage2_alookup _ _ _ _ hl]
      have h2 : alookup d' (RefCounter.addRef (mapGetD p.1 [] acc) d p.2) =
          alookup d' (mapGetD p.1 [] acc) := by
        unfold RefCounter.addRef
        rw [alookup_mapSet, if_neg hne]
      rw [h2]
      cases hacc : alookup p.1 acc with
      | some rc =>
        rw [mapGetD_some _ _ _ _ hacc,
          usage2_alookup _ _ _ _ (by rw [hsp]; exact hacc)]
      | none =>
        rw [mapGetD_none _ _ _ hacc, usage2_none _ _ _ (by rw [hsp]; exact hacc)]
        rfl
    · have hl : alookup s (scopeStep d acc p) = alookup s acc := by
        unfold scopeStep
        rw [alookup_mapSet, if_neg hsp]
      unfold usage2
      rw [hl]

theorem inner_fold_fresh (d d' : String) (hne : d' ≠ d) (ri : RefInfo)
    (acc : List (String × RefCounter))
    (hfr : ∀ s rc, alookup s acc = some rc → alookup d' rc = none) :
    ∀ s rc, alookup s (ri.foldl (scopeStep d) acc) = some rc → alookup d' rc = none := by
  induction ri generalizing acc with
  | nil => exact hfr
  | cons p rest ih =>
    rw [List.foldl_cons]
    apply ih
    intro s rc hrc
    unfold scopeStep at hrc
    rw [alookup_mapSet] at hrc
    by_cases hsp : s = p.1
    · rw [if_pos hsp, Option.some_inj] at hrc
      rw [← hrc]
      unfold RefCounter.addRef
      rw [alookup_mapSet, if_neg hne]
      unfold mapGetD
      cases hacc : alookup p.1 acc with
      | some rc0 => exact hfr p.1 rc0 hacc
      | none => simp [alookup]
    · rw [if_neg hsp] at hrc
      exact hfr s rc hrc

theorem inner_fold_at_db (d : String) (ri : RefInfo) (acc : List (String × RefCounter))
    (s : String) (hnd : (ri.map Prod.fst).Nodup)
    (hfr : ∀ rc, alookup s acc = some rc → alookup d rc = none) :
    usage2 (ri.foldl (scopeStep d) acc) s d = alookup s ri := by
  induction ri generalizing acc with
  | nil =>
    cases hs : alookup s acc with
    | none => rw [List.foldl_nil, usage2_none _ _ _ hs]; rfl
    | some rc => rw [List.foldl_nil, usage2_alookup _ _ _ _ hs, hfr rc hs]; rfl
  | cons p rest ih =>
    obtain ⟨s0, c0⟩ := p
    simp only [List.map_cons, List.nodup_cons] at hnd
    rw [List.foldl_cons]
    by_cases hseq : s = s0
    · subst hseq
      have hfold : alookup s (rest.foldl (scopeStep d) (scopeStep d acc (s, c0))) =
          alookup s (scopeStep d acc (s, c0)) :=
        inner_fold_untouched_scope d rest _ s hnd.1
      have hl2 : alookup s (scopeStep d acc (s, c0)) =
          some (RefCounter.addRef (mapGetD s [] acc) d c0) := by
        unfold scopeStep
        rw [alookup_mapSet, if_pos rfl]
      rw [usage2_alookup _ _ _ _ (hfold.trans hl2)]
      have h2 : alookup d (RefCounter.addRef (mapGetD s [] acc) d c0) =
          some (mapGetD d 0 (mapGetD s [] acc) + c0) := by
        unfold RefCounter.addRef
        rw [alookup_mapSet, if_pos rfl]
      rw [h2]
      have hz : mapGetD d 0 (mapGetD s [] acc) = 0 := by
        cases hacc : alookup s acc with
        | some rc => rw [mapGetD_some _ _ _ _ hacc, mapGetD_none _ _ _ (hfr rc hacc)]
        | none => rw [mapGetD_none _ _ _ hacc]; rfl
      rw [hz]
      simp [alookup]
    · have hfr' : ∀ rc, alookup s (scopeStep d acc (s0, c0)) = some rc →
          alookup d rc = none := by
        intro rc hrc
        unfold scopeStep at hrc
        rw [alookup_mapSet, if_neg hseq] at hrc
        exact hfr rc hrc
      rw [ih _ hnd.2 hfr']
      simp [alookup, hseq]

theorem outer_fold_other_db (h : List (String × RefInfo))
    (acc : List (String × RefCounter)) (s d : String)
    (hd : d ∉ h.map Prod.fst) :
    usage2 (h.foldl dbStep acc) s d = usage2 acc s d := by
  induction h generalizing acc with
  | nil => rfl
  | cons q rest ih =>
    rw [List.map_cons, List.mem_cons] at hd
    push_neg at hd
    rw [List.foldl_cons, ih _ hd.2]
    exact inner_fold_other_db q.1 d hd.1 q.2 acc s

theorem outer_fold_usage2 (h : List (String × RefInfo))
    (acc : List (String × RefCounter)) (s d : String)
    (hnd : (h.map Prod.fst).Nodup)
    (hri : ∀ q ∈ h, (q.2.map Prod.fst).Nodup)
    (hfr : ∀ d' ∈ h.map Prod.fst, ∀ s' rc, alookup s' acc = some rc →
      alookup d' rc = none) :
    usage2 (h.foldl dbStep acc) s d =
      match alookup d h with
      | some ri => alookup s ri
      | none => usage2 acc s d := by
  induction h generalizing acc with
  | nil => rfl
  | cons q rest ih =>
    obtain ⟨d0, ri0⟩ := q
    simp only [List.map_cons, List.nodup_cons] at hnd
    rw [List.foldl_cons]
    by_cases hdd : d = d0
    · subst hdd
      rw [outer_fold_other_db rest _ s d hnd.1]
      unfold dbStep
      rw [inner_fold_at_db d ri0 acc s (hri (d, ri0) (by simp))
        (fun rc hrc => hfr d (by simp) s rc hrc)]
      simp [alookup]
    · have hfr' : ∀ d' ∈ rest.map Prod.fst, ∀ s' rc,
          alookup s' (dbStep acc (d0, ri0)) = some rc → alookup d' rc = none := by
        intro d' hd' s' rc hrc
        have hne : d' ≠ d0 := fun he => hnd.1 (he ▸ hd')
        exact inner_fold_fresh d0 d' hne ri0 acc
          (fun s2 rc2 h2 => hfr d' (by simp [hd']) s2 rc2 h2) s' rc hrc
      rw [ih _ hnd.2 (fun q hq => hri q (List.mem_cons_of_mem _ hq)) hfr']
      cases hrest : alookup d rest with
      | some ri => simp [alookup, hdd, hrest]
      | none =>
        simp only [alookup, hdd, if_false, hrest]
        exact inner_fold_other_db d0 d hdd ri0 acc s

theorem inner_fold_values (d : String) (ri : RefInfo) (acc : List (String × RefCounter))
    (hacc : ∀ p ∈ acc, p.2 ≠ []) :
    ∀ p ∈ ri.foldl (scopeStep d) acc, p.2 ≠ [] := by
  induction ri generalizing acc with
  | nil => exact hacc
  | cons q rest ih =>
    rw [List.foldl_cons]
    apply ih
    intro p hp
    unfold scopeStep at hp
    rcases mem_mapSet _ _ _ p hp with hq | hq
    · rw [hq]
      exact mapSet_ne_nil _ _ _
    · exact hacc p hq

theorem outer_fold_values (h : List (String × RefInfo)) (acc : List (String × RefCounter))
    (hacc : ∀ p ∈ acc, p.2 ≠ []) :
    ∀ p ∈ h.foldl dbStep acc, p.2 ≠ [] := by
  induction h generalizing acc with
  | nil => exact hacc
  | cons q rest ih =>
    rw [List.foldl_cons]
    exact ih _ (inner_fold_values q.1 q.2 acc hacc)

/-- C3: for every well-formed registry state, the scope view returned by
`getKVDBScopesInfo` is the exact transpose of the database view returned by
`getKVDBHandlersInfo` — the count under (scope, database) equals the count
under (database, scope) for every pair, absent entries included — and each
view holds exactly the scopes / databases with at least one usage entry;
the scope view is recomputed from the database view by definition, not kept
as separate state. -/
theorem scopesInfo_transpose (st : KVDBManager)
    (hwf : CollectionWF st.kvdbHandlerCollection) :
    (∀ s d, usage2 (getKVDBScopesInfo st) s d = usage2 (getKVDBHandlersInfo st) d s) ∧
    (∀ s, (alookup s (getKVDBScopesInfo st)).isSome = true ↔
      ∃ d, (usage2 (getKVDBHandlersInfo st) d s).isSome = true) ∧
    (∀ d, (alookup d (getKVDBHandlersInfo st)).isSome = true ↔
      ∃ s, (usage2 (getKVDBHandlersInfo st) d s).isSome = true) := by
  have hkeys := handlersInfo_keys st
  have hnd : ((getKVDBHandlersInfo st).map Prod.fst).Nodup := by
    rw [hkeys]
    exact hwf.1
  have hvals := handlersInfo_values_wf st hwf
  have htrans : ∀ s d,
      usage2 (getKVDBScopesInfo st) s d = usage2 (getKVDBHandlersInfo st) d s := by
    intro s d
    unfold getKVDBScopesInfo
    rw [outer_fold_usage2 (getKVDBHandlersInfo st) [] s d hnd
      (fun q hq => (hvals q hq).2.1)
      (fun d' _ s' rc hrc => by simp [alookup] at hrc)]
    cases hd : alookup d (getKVDBHandlersInfo st) with
    | some ri => rw [usage2_alookup _ _ _ _ hd]
    | none => rw [usage2_none _ _ _ hd]; rfl
  have hne2 : ∀ p ∈ getKVDBScopesInfo st, p.2 ≠ [] := by
    unfold getKVDBScopesInfo
    exact outer_fold_values _ [] (by intro p hp; simp at hp)
  refine ⟨htrans, ?_, ?_⟩
  · intro s
    constructor
    · intro hs
      cases hrc : alookup s (getKVDBScopesInfo st) with
      | none => rw [hrc] at hs; simp at hs
      | some rc =>
        cases rc with
        | nil => exact absurd rfl (hne2 (s, []) (alookup_some_mem _ _ _ hrc))
        | cons q rest =>
          refine ⟨q.1, ?_⟩
          rw [← htrans s q.1, usage2_alookup _ _ _ _ hrc]
          obtain ⟨qd, qc⟩ := q
          simp [alookup]
    · rintro ⟨d, hd⟩
      rw [← htrans s d] at hd
      cases hrc : alookup s (getKVDBScopesInfo st) with
      | none => rw [usage2_none _ _ _ hrc] at hd; simp at hd
      | some rc => rfl
  · intro d
    constructor
    · intro hd
      cases hri : alookup d (getKVDBHandlersInfo st) with
      | none => rw [hri] at hd; simp at hd
      | some ri =>
        have hwfri := hvals _ (alookup_some_mem _ _ _ hri)
        cases ri with
        | nil => exact absurd rfl hwfri.1
        | cons q rest =>
          refine ⟨q.1, ?_⟩
          rw [usage2_alookup _ _ _ _ hri]
          obtain ⟨qs, qc⟩ := q
          simp [alookup]
    · rintro ⟨s, hs⟩
      cases hri : alookup d (getKVDBHandlersInfo st) with
      | none => rw [usage2_none _ _ _ hri] at hs; simp at hs
      | some ri => rfl

/-- Witness for C3: the transpose equality applied to the two-scope state at
a present pair, with the concrete transposed count. -/
theorem scopesInfo_transpose_witness :
    usage2 (getKVDBScopesInfo stTwoScopes) "s2" "db1" =
      usage2 (getKVDBHandlersInfo stTwoScopes) "db1" "s2" ∧
    usage2 (getKVDBHandlersInfo stTwoScopes) "db1" "s2" = some 1 := by
  refine ⟨(scopesInfo_transpose stTwoScopes (by decide)).1 "s2" "db1", by decide⟩

end kvdbManager
